import Mathlib

/-!
Conversation controller of the Job Description Bias Analyzer front end

Shallow embedding of `frontend/src/App.jsx`.

The component keeps five pieces of React state (`messages`, `input`,
`isLoading`, `conversationId`, `error`).  The asynchronous handler
`handleSubmit` is split at its single `await`:

* `handleSubmit` is the synchronous part (lines 34-48): it returns the next
  state together with the request handed to `sendMessage`, if any;
* `handleSubmit_resolved` is the continuation run when the promise resolves
  (lines 50-59 followed by the `finally` block);
* `handleSubmit_rejected` is the continuation run when the promise rejects
  (the `catch` block followed by the `finally` block).

Inside `handleSubmit` the names `input`, `isLoading` and `conversationId` are
constants of the render in which the handler was created; the setters only
queue updates, which become visible to handlers at the next render.  The
handler therefore takes two states: the values of the last render, which it
reads, and the current state cells, which its setters update.  Both
continuations close over the same render, so the `conversationId` of that render
travels with the outstanding request.
-/

namespace BiasAnalyzer

/-! ## JavaScript string helpers -/

/-- Code points removed by `String.prototype.trim`: the ECMAScript `WhiteSpace`
and `LineTerminator` productions. -/
def isTrimChar (c : Char) : Bool :=
  let n := c.toNat
  n == 0x09 || n == 0x0A || n == 0x0B || n == 0x0C || n == 0x0D || n == 0x20 ||
  n == 0xA0 || n == 0x1680 || (0x2000 ≤ n && n ≤ 0x200A) || n == 0x2028 ||
  n == 0x2029 || n == 0x202F || n == 0x205F || n == 0x3000 || n == 0xFEFF

/-- The method `String.prototype.trim`: strip leading and trailing white space.
All stripped code points lie in the Basic Multilingual Plane, so working on
code points agrees with working on UTF-16 code units. -/
def jsTrim (s : String) : String :=
  ⟨((s.data.dropWhile isTrimChar).reverse.dropWhile isTrimChar).reverse⟩

/-- Truthiness of a JavaScript string: every string but the empty one. -/
def truthyStr (s : String) : Bool :=
  s != ""

/-- Truthiness of a value that is `null`/`undefined` or a string. -/
def truthy : Option String → Bool
  | none => false
  | some s => truthyStr s

/-! ## Data model -/

/-- The two values of the `role` field used by the component. -/
inductive Role where
  | user
  | assistant
  deriving DecidableEq, Repr

/-- One entry of the `messages` array. -/
structure Message where
  role : Role
  content : String
  deriving DecidableEq, Repr

/-- The React state of `App` (the five `useState` cells, lines 6-15). -/
structure AppState where
  messages : List Message
  input : String
  isLoading : Bool
  conversationId : Option String
  error : Option String
  deriving DecidableEq, Repr

/-- The arguments of one call `sendMessage(userMessage, conversationId)`. -/
structure Request where
  message : String
  conversationId : Option String
  deriving DecidableEq, Repr

/-- The fields of a resolved response read by the component. -/
structure Response where
  conversation_id : Option String
  response : String
  deriving DecidableEq, Repr

/-- The seeded greeting (lines 7-10). -/
def greeting : Message :=
  { role := Role.assistant
    content := "Hello! Please paste or type a job description, and I'll analyze it for gender bias in language." }

/-- The initial values of the `useState` cells. -/
def initialState : AppState :=
  { messages := [greeting]
    input := ""
    isLoading := false
    conversationId := none
    error := none }

/-- The text passed to `setError` in the `catch` block (line 61). -/
def failureText : String :=
  "Failed to send message. Please check your connection and try again."

/-! ## Handlers -/

/-- The handler `onChange={(e) => setInput(e.target.value)}` (line 114). -/
def setInput (value : String) (s : AppState) : AppState :=
  { s with input := value }

/-- The synchronous part of `handleSubmit` (lines 34-48), up to the `await`.
`rendered` holds the values of the render the handler closes over: the guard of
line 37, the text of line 39 and the identifier of line 48 are read from it.
`s` holds the current state cells, which the setters of lines 40-45 update
(`setMessages` with a function of the previous value, the others with a value).
The second component is the request given to `sendMessage`, if one is made. -/
def handleSubmit (rendered : AppState) (s : AppState) : AppState × Option Request :=
  if !(truthyStr (jsTrim rendered.input)) || rendered.isLoading then
    (s, none)
  else
    let userMessage := jsTrim rendered.input
    ({ messages := s.messages ++ [{ role := Role.user, content := userMessage }]
       input := ""
       isLoading := true
       conversationId := s.conversationId
       error := none },
     some { message := userMessage, conversationId := rendered.conversationId })

/-- The continuation of `handleSubmit` after `sendMessage` resolves (lines 50-59
and 64).  `conversationId` is the value captured by the closure at submission. -/
def handleSubmit_resolved (conversationId : Option String) (response : Response)
    (s : AppState) : AppState :=
  let s1 : AppState :=
    if truthy response.conversation_id && !(truthy conversationId) then
      { s with conversationId := response.conversation_id }
    else s
  let s2 : AppState :=
    { s1 with messages := s1.messages ++ [{ role := Role.assistant, content := response.response }] }
  { s2 with isLoading := false }

/-- The continuation of `handleSubmit` after `sendMessage` rejects with `err`
(lines 60-64).  The error value is only logged. -/
def handleSubmit_rejected (_err : String) (s : AppState) : AppState :=
  { s with error := some failureText, isLoading := false }

/-- The `disabled` attribute of the Send button (line 120), computed from the
values of a render. -/
def sendDisabled (rendered : AppState) : Bool :=
  rendered.isLoading || !(truthyStr (jsTrim rendered.input))

/-- The `disabled` attribute of the text area (line 117), computed from the
values of a render. -/
def textareaDisabled (rendered : AppState) : Bool :=
  rendered.isLoading

/-! ## The controller as a transition system -/

/-- The controller: the current state cells, the values of the last render
(read by the event handlers created in that render), and the requests that have
been handed to `sendMessage` and have not settled yet. -/
structure Ctl where
  app : AppState
  rendered : AppState
  outstanding : List Request
  deriving DecidableEq, Repr

/-- The events the controller reacts to.  The text area is disabled while the
rendered `isLoading` holds, so in the browser no edit occurs then; edits are
admitted in every state here, which only enlarges the set of runs considered. -/
inductive Event where
  /-- The user changes the text of the draft. -/
  | edit (value : String)
  /-- The form is submitted (Send button, or Enter through `handleKeyDown`). -/
  | submit
  /-- The outstanding request at position `i` resolves with `response`. -/
  | resolve (i : Nat) (response : Response)
  /-- The outstanding request at position `i` rejects with `err`. -/
  | reject (i : Nat) (err : String)
  /-- The component re-renders: handlers now close over the current state. -/
  | render
  deriving DecidableEq, Repr

/-- The start of a session: initial state, rendered, nothing in flight. -/
def Ctl.init : Ctl :=
  { app := initialState, rendered := initialState, outstanding := [] }

/-- One step of the controller.  A submit event runs the `handleSubmit` of the
last render.  A settlement runs the continuation of the request it names, with
the identifier that request captured; a settlement event that names no
outstanding request cannot occur and changes nothing. -/
def Ctl.step (c : Ctl) : Event → Ctl
  | Event.edit value => { c with app := setInput value c.app }
  | Event.submit =>
      { app := (handleSubmit c.rendered c.app).1
        rendered := c.rendered
        outstanding := c.outstanding ++ (handleSubmit c.rendered c.app).2.toList }
  | Event.resolve i response =>
      match c.outstanding[i]? with
      | none => c
      | some q =>
          { app := handleSubmit_resolved q.conversationId response c.app
            rendered := c.rendered
            outstanding := c.outstanding.eraseIdx i }
  | Event.reject i err =>
      match c.outstanding[i]? with
      | none => c
      | some _ =>
          { app := handleSubmit_rejected err c.app
            rendered := c.rendered
            outstanding := c.outstanding.eraseIdx i }
  | Event.render => { c with rendered := c.app }

/-- Run a sequence of events from a controller state. -/
def Ctl.run (c : Ctl) (es : List Event) : Ctl :=
  es.foldl Ctl.step c

/-- States reachable from the start of a session, under every interleaving of
edits, submit attempts, settlements and re-renders. -/
def Reachable (c : Ctl) : Prop :=
  ∃ es : List Event, Ctl.run Ctl.init es = c

/-- Events between the acceptance and the settlement of a request: edits,
re-renders, and submit attempts made once the component has re-rendered.  The
flag tells whether a re-render has taken place since the acceptance. -/
def whileInFlight : Bool → List Event → Bool
  | _, [] => true
  | seen, Event.edit _ :: es => whileInFlight seen es
  | _, Event.render :: es => whileInFlight true es
  | seen, Event.submit :: es => seen && whileInFlight seen es
  | _, Event.resolve _ _ :: _ => false
  | _, Event.reject _ _ :: _ => false

/-- A submit attempt made from a current render: the component re-renders
right before the handler runs.  Other events are left as they are. -/
def fromCurrentRender : Event → List Event
  | Event.submit => [Event.render, Event.submit]
  | Event.edit value => [Event.edit value]
  | Event.resolve i response => [Event.resolve i response]
  | Event.reject i err => [Event.reject i err]
  | Event.render => [Event.render]

/-- An event sequence in which every submit attempt is made from a current
render. -/
def renderBeforeSubmit (es : List Event) : List Event :=
  es.flatMap fromCurrentRender

/-- The single-flight discipline together with the agreement between the
identifier captured by an outstanding request and the stored one. -/
def Ctl.Inv (c : Ctl) : Prop :=
  c.outstanding.length = (if c.app.isLoading = true then 1 else 0) ∧
  (∀ q ∈ c.outstanding, q.conversationId = c.app.conversationId) ∧
  c.app.conversationId ≠ some ""

/-- The events of a series of complete round trips: each draft is typed and
rendered, submitted, and its request resolves before the next draft is typed;
the component re-renders after every state change. -/
def roundEvents (rounds : List (String × Response)) : List Event :=
  rounds.flatMap fun p =>
    [Event.edit p.1, Event.render, Event.submit, Event.render,
     Event.resolve 0 p.2, Event.render]

/-- The user message and assistant reply of each round trip, in order. -/
def roundMessages (rounds : List (String × Response)) : List Message :=
  rounds.flatMap fun p =>
    [{ role := Role.user, content := jsTrim p.1 },
     { role := Role.assistant, content := p.2.response }]

/-! ## Basic facts about the helpers -/

theorem truthyStr_eq_true_iff (s : String) : truthyStr s = true ↔ s ≠ "" := by
  simp [truthyStr]

theorem truthyStr_eq_false_iff (s : String) : truthyStr s = false ↔ s = "" := by
  simp [truthyStr]

theorem truthy_eq_true_iff (v : Option String) :
    truthy v = true ↔ ∃ id, v = some id ∧ id ≠ "" := by
  cases v with
  | none => simp [truthy]
  | some s => simp [truthy, truthyStr]

theorem dropWhile_reverse_dropWhile_eq_nil (p : Char → Bool) (l : List Char) :
    (l.dropWhile p).reverse.dropWhile p = [] ↔ ∀ ch ∈ l, p ch = true := by
  induction l with
  | nil => simp
  | cons a l ih =>
    by_cases ha : p a = true
    · simp [List.dropWhile_cons, ha, ih]
    · have hne : (a :: l).dropWhile p = a :: l := by simp [List.dropWhile_cons, ha]
      rw [hne]
      constructor
      · intro h
        rw [List.dropWhile_eq_nil_iff] at h
        exact absurd (h a (by simp)) ha
      · intro h
        exact absurd (h a (by simp)) ha

/-- The trimmed text is empty exactly when the text is empty or consists of
white space only. -/
theorem jsTrim_eq_empty_iff (d : String) :
    jsTrim d = "" ↔ ∀ ch ∈ d.data, isTrimChar ch = true := by
  rw [← dropWhile_reverse_dropWhile_eq_nil]
  unfold jsTrim
  constructor
  · intro h
    have h2 := congrArg String.data h
    simpa using h2
  · intro h
    rw [h]
    rfl

theorem handleSubmit_of_reject (v s : AppState)
    (h : jsTrim v.input = "" ∨ v.isLoading = true) : handleSubmit v s = (s, none) := by
  unfold handleSubmit
  rcases h with h | h
  · simp [h, truthyStr]
  · simp [h]

theorem handleSubmit_of_accept (v s : AppState)
    (hl : v.isLoading = false) (hd : jsTrim v.input ≠ "") :
    handleSubmit v s =
      ({ messages := s.messages ++ [{ role := Role.user, content := jsTrim v.input }]
         input := ""
         isLoading := true
         conversationId := s.conversationId
         error := none },
       some { message := jsTrim v.input, conversationId := v.conversationId }) := by
  unfold handleSubmit
  simp [hl, truthyStr, hd]

/-- The guard of line 37 either rejects or accepts. -/
theorem handleSubmit_guard_cases (v : AppState) :
    (jsTrim v.input = "" ∨ v.isLoading = true) ∨
    (v.isLoading = false ∧ jsTrim v.input ≠ "") := by
  by_cases hrej : jsTrim v.input = "" ∨ v.isLoading = true
  · exact Or.inl hrej
  · right
    refine ⟨?_, fun h0 => hrej (Or.inl h0)⟩
    cases hb : v.isLoading with
    | false => rfl
    | true => exact absurd (Or.inr hb) hrej

/-! ## Runs of the controller -/

theorem Ctl.run_nil (c : Ctl) : Ctl.run c [] = c := rfl

theorem Ctl.run_cons (c : Ctl) (e : Event) (es : List Event) :
    Ctl.run c (e :: es) = Ctl.run (Ctl.step c e) es := rfl

theorem Ctl.run_append (c : Ctl) (es fs : List Event) :
    Ctl.run c (es ++ fs) = Ctl.run (Ctl.run c es) fs := by
  simp [Ctl.run, List.foldl_append]

theorem Ctl.step_submit_of_reject (c : Ctl)
    (h : jsTrim c.rendered.input = "" ∨ c.rendered.isLoading = true) :
    Ctl.step c Event.submit = c := by
  simp [Ctl.step, handleSubmit_of_reject c.rendered c.app h]

/-- The state right after an accepted submission. -/
theorem Ctl.step_submit_of_accept (c : Ctl)
    (hl : c.rendered.isLoading = false) (hd : jsTrim c.rendered.input ≠ "") :
    Ctl.step c Event.submit =
      { app :=
          { messages :=
              c.app.messages ++ [{ role := Role.user, content := jsTrim c.rendered.input }]
            input := ""
            isLoading := true
            conversationId := c.app.conversationId
            error := none }
        rendered := c.rendered
        outstanding :=
          c.outstanding ++
            [{ message := jsTrim c.rendered.input
               conversationId := c.rendered.conversationId }] } := by
  simp [Ctl.step, handleSubmit_of_accept c.rendered c.app hl hd]

theorem Ctl.step_resolve_last (a v : AppState) (out : List Request) (q : Request)
    (r : Response) :
    Ctl.step { app := a, rendered := v, outstanding := out ++ [q] }
        (Event.resolve out.length r) =
      { app := handleSubmit_resolved q.conversationId r a, rendered := v, outstanding := out } := by
  simp [Ctl.step, List.eraseIdx_append_of_length_le]

theorem Ctl.step_reject_last (a v : AppState) (out : List Request) (q : Request)
    (err : String) :
    Ctl.step { app := a, rendered := v, outstanding := out ++ [q] }
        (Event.reject out.length err) =
      { app := handleSubmit_rejected err a, rendered := v, outstanding := out } := by
  simp [Ctl.step, List.eraseIdx_append_of_length_le]

/-- The stored identifier is never the empty string: only truthy identifiers
are ever stored (line 51). -/
theorem Ctl.step_conversationId_ne_empty (c : Ctl) (e : Event)
    (h : c.app.conversationId ≠ some "") : (Ctl.step c e).app.conversationId ≠ some "" := by
  cases e with
  | edit v => simpa [Ctl.step, setInput] using h
  | submit =>
    rcases handleSubmit_guard_cases c.rendered with hrej | ⟨hl, hd⟩
    · rw [Ctl.step_submit_of_reject c hrej]; exact h
    · rw [Ctl.step_submit_of_accept c hl hd]; exact h
  | resolve i r =>
    cases hq : c.outstanding[i]? with
    | none => simpa [Ctl.step, hq] using h
    | some q =>
      simp only [Ctl.step, hq, handleSubmit_resolved]
      split
      · rename_i ht
        intro h0
        simp only at h0
        simp [h0, truthy, truthyStr] at ht
      · exact h
  | reject i err =>
    cases hq : c.outstanding[i]? with
    | none => simpa [Ctl.step, hq] using h
    | some q => simpa [Ctl.step, hq, handleSubmit_rejected] using h
  | render => simpa [Ctl.step] using h

theorem Reachable.conversationId_ne_empty {c : Ctl} (h : Reachable c) :
    c.app.conversationId ≠ some "" := by
  obtain ⟨es, rfl⟩ := h
  have key : ∀ (es : List Event) (c : Ctl), c.app.conversationId ≠ some "" →
      (Ctl.run c es).app.conversationId ≠ some "" := by
    intro es
    induction es with
    | nil => intro c hc; exact hc
    | cons e es ih =>
      intro c hc
      exact ih _ (Ctl.step_conversationId_ne_empty c e hc)
  exact key es Ctl.init (by simp [Ctl.init, initialState])

/-- While a request is in flight, edits, re-renders and submit attempts made
after a re-render change nothing but the draft and the rendered values. -/
theorem Ctl.run_whileInFlight (c : Ctl) (seen : Bool) (es : List Event)
    (hl : c.app.isLoading = true) (hseen : seen = true → c.rendered.isLoading = true)
    (hes : whileInFlight seen es = true) :
    (Ctl.run c es).app.messages = c.app.messages ∧
    (Ctl.run c es).app.isLoading = true ∧
    (Ctl.run c es).app.conversationId = c.app.conversationId ∧
    (Ctl.run c es).app.error = c.app.error ∧
    (Ctl.run c es).outstanding = c.outstanding := by
  induction es generalizing c seen with
  | nil => simp [Ctl.run_nil, hl]
  | cons e es ih =>
    rw [Ctl.run_cons]
    cases e with
    | edit v =>
      have := ih (Ctl.step c (Event.edit v)) seen (by simpa [Ctl.step, setInput] using hl)
        (by simpa [Ctl.step, setInput] using hseen) (by simpa [whileInFlight] using hes)
      simpa [Ctl.step, setInput] using this
    | submit =>
      simp only [whileInFlight, Bool.and_eq_true] at hes
      rw [Ctl.step_submit_of_reject c (Or.inr (hseen hes.1))]
      exact ih c seen hl hseen hes.2
    | resolve i r => simp [whileInFlight] at hes
    | reject i err => simp [whileInFlight] at hes
    | render =>
      have := ih (Ctl.step c Event.render) true (by simpa [Ctl.step] using hl)
        (by intro _; simpa [Ctl.step] using hl) (by simpa [whileInFlight] using hes)
      simpa [Ctl.step] using this

/-- The stored identifier after a successful settlement whose closure captured
the stored identifier. -/
theorem handleSubmit_resolved_conversationId (r : Response) (s : AppState)
    (hne : s.conversationId ≠ some "") :
    (s.conversationId = none → ∀ id, r.conversation_id = some id → id ≠ "" →
      (handleSubmit_resolved s.conversationId r s).conversationId = some id) ∧
    (s.conversationId ≠ none ∨ r.conversation_id = none ∨ r.conversation_id = some "" →
      (handleSubmit_resolved s.conversationId r s).conversationId = s.conversationId) := by
  constructor
  · intro hs id hid hne2
    simp [handleSubmit_resolved, hs, hid, truthy, truthyStr, hne2]
  · intro h
    rcases h with h | h | h
    · have ht : truthy s.conversationId = true := by
        cases hc : s.conversationId with
        | none => exact absurd hc h
        | some v =>
          have : v ≠ "" := by
            intro hv
            exact hne (by rw [hc, hv])
          simp [truthy, truthyStr, this]
      simp [handleSubmit_resolved, ht]
    · simp [handleSubmit_resolved, h, truthy]
    · simp [handleSubmit_resolved, h, truthy, truthyStr]

theorem handleSubmit_resolved_messages (cid : Option String) (r : Response) (s : AppState) :
    (handleSubmit_resolved cid r s).messages =
      s.messages ++ [{ role := Role.assistant, content := r.response }] := by
  simp only [handleSubmit_resolved]
  split <;> rfl

theorem handleSubmit_resolved_error (cid : Option String) (r : Response) (s : AppState) :
    (handleSubmit_resolved cid r s).error = s.error := by
  simp only [handleSubmit_resolved]
  split <;> rfl

/-! ## Runs in which every submit attempt is made from a current render -/

theorem renderBeforeSubmit_cons (e : Event) (es : List Event) :
    renderBeforeSubmit (e :: es) = fromCurrentRender e ++ renderBeforeSubmit es := by
  simp [renderBeforeSubmit]

theorem Ctl.Inv_init : Ctl.Inv Ctl.init := by
  simp [Ctl.Inv, Ctl.init, initialState]

/-- Under the invariant the controller is idle with nothing in flight, or busy
with exactly one request whose captured identifier is the stored one. -/
theorem Ctl.Inv_cases (c : Ctl) (h : Ctl.Inv c) :
    (c.app.isLoading = false ∧ c.outstanding = []) ∨
    (c.app.isLoading = true ∧
      ∃ q, c.outstanding = [q] ∧ q.conversationId = c.app.conversationId) := by
  obtain ⟨hlen, hcid, _⟩ := h
  cases hl : c.app.isLoading with
  | false =>
    left
    simp [hl] at hlen
    exact ⟨rfl, hlen⟩
  | true =>
    right
    simp [hl] at hlen
    obtain ⟨q, hq⟩ := List.length_eq_one.mp hlen
    exact ⟨rfl, q, hq, hcid q (by simp [hq])⟩

/-- A submit attempt made from a current render is accepted only when nothing is
in flight, and then exactly one request is in flight. -/
theorem Ctl.render_submit (c : Ctl) :
    (Ctl.run c [Event.render, Event.submit] = Ctl.step c Event.render ∧
      (jsTrim c.app.input = "" ∨ c.app.isLoading = true)) ∨
    (Ctl.run c [Event.render, Event.submit] =
        { app :=
            { messages :=
                c.app.messages ++ [{ role := Role.user, content := jsTrim c.app.input }]
              input := ""
              isLoading := true
              conversationId := c.app.conversationId
              error := none }
          rendered := c.app
          outstanding :=
            c.outstanding ++
              [{ message := jsTrim c.app.input, conversationId := c.app.conversationId }] } ∧
      c.app.isLoading = false ∧ jsTrim c.app.input ≠ "") := by
  rw [Ctl.run_cons, Ctl.run_cons, Ctl.run_nil]
  rcases handleSubmit_guard_cases c.app with hrej | ⟨hl, hd⟩
  · left
    exact ⟨Ctl.step_submit_of_reject (Ctl.step c Event.render) hrej, hrej⟩
  · right
    refine ⟨?_, hl, hd⟩
    rw [Ctl.step_submit_of_accept (Ctl.step c Event.render) hl hd]
    rfl

theorem Ctl.Inv_fromCurrentRender (c : Ctl) (e : Event) (h : Ctl.Inv c) :
    Ctl.Inv (Ctl.run c (fromCurrentRender e)) := by
  have hne := h.2.2
  cases e with
  | edit v => simpa [fromCurrentRender, Ctl.run, Ctl.step, setInput, Ctl.Inv] using h
  | render => simpa [fromCurrentRender, Ctl.run, Ctl.step, Ctl.Inv] using h
  | submit =>
    simp only [fromCurrentRender]
    rcases Ctl.render_submit c with ⟨hrun, _⟩ | ⟨hrun, hl, _⟩
    · rw [hrun]
      simpa [Ctl.step, Ctl.Inv] using h
    · rw [hrun]
      rcases Ctl.Inv_cases c h with ⟨_, ho⟩ | ⟨hl2, _⟩
      · simp [Ctl.Inv, ho, hne]
      · rw [hl] at hl2
        exact absurd hl2 (by simp)
  | resolve i r =>
    simp only [fromCurrentRender, Ctl.run_cons, Ctl.run_nil]
    rcases Ctl.Inv_cases c h with ⟨_, ho⟩ | ⟨_, q, ho, hq⟩
    · simpa [Ctl.step, ho] using h
    · cases i with
      | zero =>
        by_cases ht : truthy r.conversation_id = true ∧ truthy c.app.conversationId = false
        · have hr : r.conversation_id ≠ some "" := by
            intro h0
            have := ht.1
            simp [h0, truthy, truthyStr] at this
          simp [Ctl.step, ho, handleSubmit_resolved, hq, ht.1, ht.2, Ctl.Inv, hr]
        · have : (truthy r.conversation_id && !truthy c.app.conversationId) = false := by
            cases h1 : truthy r.conversation_id <;> cases h2 : truthy c.app.conversationId <;>
              simp_all
          simp [Ctl.step, ho, handleSubmit_resolved, hq, this, Ctl.Inv, hne]
      | succ n => simpa [Ctl.step, ho] using h
  | reject i err =>
    simp only [fromCurrentRender, Ctl.run_cons, Ctl.run_nil]
    rcases Ctl.Inv_cases c h with ⟨_, ho⟩ | ⟨_, q, ho, hq⟩
    · simpa [Ctl.step, ho] using h
    · cases i with
      | zero => simp [Ctl.step, ho, handleSubmit_rejected, Ctl.Inv, hne]
      | succ n => simpa [Ctl.step, ho] using h

theorem Ctl.Inv_renderBeforeSubmit (c : Ctl) (es : List Event) (h : Ctl.Inv c) :
    Ctl.Inv (Ctl.run c (renderBeforeSubmit es)) := by
  induction es generalizing c with
  | nil => exact h
  | cons e es ih =>
    rw [renderBeforeSubmit_cons, Ctl.run_append]
    exact ih _ (Ctl.Inv_fromCurrentRender c e h)

/-- Under the invariant, a stored identifier survives any event whose submit
attempt is made from a current render. -/
theorem Ctl.conversationId_fromCurrentRender (c : Ctl) (e : Event) (v : String)
    (hinv : Ctl.Inv c) (hv : c.app.conversationId = some v) :
    (Ctl.run c (fromCurrentRender e)).app.conversationId = some v := by
  have hne := hinv.2.2
  cases e with
  | edit t => simpa [fromCurrentRender, Ctl.run, Ctl.step, setInput] using hv
  | render => simpa [fromCurrentRender, Ctl.run, Ctl.step] using hv
  | submit =>
    simp only [fromCurrentRender]
    rcases Ctl.render_submit c with ⟨hrun, _⟩ | ⟨hrun, _, _⟩
    · rw [hrun]
      simpa [Ctl.step] using hv
    · rw [hrun]
      exact hv
  | resolve i r =>
    simp only [fromCurrentRender, Ctl.run_cons, Ctl.run_nil]
    cases hq : c.outstanding[i]? with
    | none => simpa [Ctl.step, hq] using hv
    | some q =>
      have hcap := hinv.2.1 q (List.getElem?_mem hq)
      have h2 := (handleSubmit_resolved_conversationId r c.app hne).2
        (Or.inl (by simp [hv]))
      simp only [Ctl.step, hq, hcap]
      rw [h2, hv]
  | reject i err =>
    simp only [fromCurrentRender, Ctl.run_cons, Ctl.run_nil]
    cases hq : c.outstanding[i]? with
    | none => simpa [Ctl.step, hq] using hv
    | some q => simpa [Ctl.step, hq, handleSubmit_rejected] using hv

/-- A series of complete round trips started with nothing in flight. -/
theorem Ctl.run_roundEvents (c : Ctl) (rounds : List (String × Response))
    (hl : c.app.isLoading = false) (ho : c.outstanding = [])
    (h : ∀ p ∈ rounds, jsTrim p.1 ≠ "") :
    (Ctl.run c (roundEvents rounds)).app.messages = c.app.messages ++ roundMessages rounds ∧
    (Ctl.run c (roundEvents rounds)).app.isLoading = false ∧
    (Ctl.run c (roundEvents rounds)).outstanding = [] := by
  induction rounds generalizing c with
  | nil => simp [roundEvents, roundMessages, Ctl.run_nil, hl, ho]
  | cons p rounds ih =>
    have hp : jsTrim p.1 ≠ "" := h p (by simp)
    have hrest : ∀ x ∈ rounds, jsTrim x.1 ≠ "" := fun x hx => h x (by simp [hx])
    have hev : roundEvents (p :: rounds) =
        [Event.edit p.1, Event.render, Event.submit, Event.render,
          Event.resolve 0 p.2, Event.render] ++ roundEvents rounds := by
      simp [roundEvents]
    have hmsg : roundMessages (p :: rounds) =
        [{ role := Role.user, content := jsTrim p.1 },
         { role := Role.assistant, content := p.2.response }] ++ roundMessages rounds := by
      simp [roundMessages]
    rw [hev, Ctl.run_append, hmsg]
    have h1 : (Ctl.step (Ctl.step c (Event.edit p.1)) Event.render).rendered.isLoading
        = false := by
      simpa [Ctl.step, setInput] using hl
    have h2 : jsTrim (Ctl.step (Ctl.step c (Event.edit p.1)) Event.render).rendered.input
        ≠ "" := by
      simpa [Ctl.step, setInput] using hp
    have hround : ∃ a : AppState,
        Ctl.run c [Event.edit p.1, Event.render, Event.submit, Event.render,
            Event.resolve 0 p.2, Event.render] =
          { app := a, rendered := a, outstanding := [] } ∧
        a.isLoading = false ∧
        a.messages = c.app.messages ++
          [{ role := Role.user, content := jsTrim p.1 },
           { role := Role.assistant, content := p.2.response }] := by
      refine ⟨handleSubmit_resolved c.app.conversationId p.2
        { messages := c.app.messages ++ [{ role := Role.user, content := jsTrim p.1 }]
          input := ""
          isLoading := true
          conversationId := c.app.conversationId
          error := none }, ?_, rfl, ?_⟩
      · rw [Ctl.run_cons, Ctl.run_cons, Ctl.run_cons, Ctl.run_cons, Ctl.run_cons,
          Ctl.run_cons, Ctl.run_nil, Ctl.step_submit_of_accept _ h1 h2]
        simp [Ctl.step, setInput, ho]
      · rw [handleSubmit_resolved_messages]
        simp
    obtain ⟨a, ha, hal, ham⟩ := hround
    rw [ha]
    have hrec := ih { app := a, rendered := a, outstanding := [] } hal rfl hrest
    refine ⟨?_, hrec.2.1, hrec.2.2⟩
    rw [hrec.1, ham]
    simp

/-! ## Submit validation and acceptance -/

/-- C1 (validation rejection): when the trimmed draft read by the handler is
empty (equivalently, that draft is empty or holds white space only) or the
`isLoading` it reads is true, `handleSubmit` returns the state as it was
(transcript, draft, `conversationId`, `isLoading` and `error` all unchanged) and
makes no request, so the set of outstanding requests is unchanged as well.  The
handler reads the values of the last render; when the render is current these
are the state itself. -/
theorem handleSubmit_validation_rejection (c : Ctl)
    (h : jsTrim c.rendered.input = "" ∨
      (∀ ch ∈ c.rendered.input.data, isTrimChar ch = true) ∨
      c.rendered.isLoading = true) :
    handleSubmit c.rendered c.app = (c.app, none) ∧ Ctl.step c Event.submit = c := by
  have h2 : jsTrim c.rendered.input = "" ∨ c.rendered.isLoading = true := by
    rcases h with h | h | h
    · exact Or.inl h
    · exact Or.inl ((jsTrim_eq_empty_iff _).mpr h)
    · exact Or.inr h
  exact ⟨handleSubmit_of_reject c.rendered c.app h2, Ctl.step_submit_of_reject c h2⟩

theorem handleSubmit_validation_rejection_witness :
    (jsTrim (Ctl.run Ctl.init [Event.edit " \t\n", Event.render]).rendered.input = "" ∨
      (∀ ch ∈ (Ctl.run Ctl.init [Event.edit " \t\n", Event.render]).rendered.input.data,
        isTrimChar ch = true) ∨
      (Ctl.run Ctl.init [Event.edit " \t\n", Event.render]).rendered.isLoading = true) ∧
    (handleSubmit (Ctl.run Ctl.init [Event.edit " \t\n", Event.render]).rendered
        (Ctl.run Ctl.init [Event.edit " \t\n", Event.render]).app =
        ((Ctl.run Ctl.init [Event.edit " \t\n", Event.render]).app, none) ∧
      Ctl.step (Ctl.run Ctl.init [Event.edit " \t\n", Event.render]) Event.submit =
        Ctl.run Ctl.init [Event.edit " \t\n", Event.render]) :=
  ⟨Or.inl (by decide),
    handleSubmit_validation_rejection (Ctl.run Ctl.init [Event.edit " \t\n", Event.render])
      (Or.inl (by decide))⟩

/-- C2 (accepted submission): when the `isLoading` read by the handler is false
and the trimmed draft `t` it reads is not empty, the synchronous part of
`handleSubmit` clears `error`, appends exactly the message
`{role: user, content: t}` to the transcript, empties the draft, sets
`isLoading`, keeps `conversationId`, and hands exactly one request to
`sendMessage`, carrying `t` and the `conversationId` the handler reads, which is
the stored one when the render is current. -/
theorem handleSubmit_accepted (c : Ctl)
    (hl : c.rendered.isLoading = false) (hd : jsTrim c.rendered.input ≠ "") :
    (Ctl.step c Event.submit).app.error = none ∧
    (Ctl.step c Event.submit).app.messages =
      c.app.messages ++ [{ role := Role.user, content := jsTrim c.rendered.input }] ∧
    (Ctl.step c Event.submit).app.input = "" ∧
    (Ctl.step c Event.submit).app.isLoading = true ∧
    (Ctl.step c Event.submit).app.conversationId = c.app.conversationId ∧
    (handleSubmit c.rendered c.app).2 =
      some { message := jsTrim c.rendered.input
             conversationId := c.rendered.conversationId } ∧
    (Ctl.step c Event.submit).outstanding =
      c.outstanding ++
        [{ message := jsTrim c.rendered.input
           conversationId := c.rendered.conversationId }] ∧
    (c.rendered = c.app →
      (handleSubmit c.rendered c.app).2 =
          some { message := jsTrim c.app.input, conversationId := c.app.conversationId } ∧
        (Ctl.step c Event.submit).app.messages =
          c.app.messages ++ [{ role := Role.user, content := jsTrim c.app.input }]) := by
  rw [Ctl.step_submit_of_accept c hl hd, handleSubmit_of_accept c.rendered c.app hl hd]
  refine ⟨rfl, rfl, rfl, rfl, rfl, rfl, rfl, ?_⟩
  intro heq
  rw [heq]
  exact ⟨rfl, rfl⟩

theorem handleSubmit_accepted_witness :
    (Ctl.run Ctl.init [Event.edit "  Analyze this ", Event.render]).rendered.isLoading
      = false ∧
    jsTrim (Ctl.run Ctl.init [Event.edit "  Analyze this ", Event.render]).rendered.input
      ≠ "" ∧
    Ctl.step (Ctl.run Ctl.init [Event.edit "  Analyze this ", Event.render]) Event.submit =
      { app :=
          { messages := [greeting, { role := Role.user, content := "Analyze this" }]
            input := ""
            isLoading := true
            conversationId := none
            error := none }
        rendered := setInput "  Analyze this " initialState
        outstanding := [{ message := "Analyze this", conversationId := none }] } ∧
    (Ctl.step (Ctl.run Ctl.init [Event.edit "  Analyze this ", Event.render])
      Event.submit).app.error = none :=
  ⟨by decide, by decide, by decide,
    (handleSubmit_accepted (Ctl.run Ctl.init [Event.edit "  Analyze this ", Event.render])
      (by decide) (by decide)).1⟩

/-! ## Settlement -/

/-- C3 (error isolation): take a state whose rendered `isLoading` is false and
whose rendered draft is not blank, submit it, let the user edit the draft, the
component re-render, and the user attempt further submissions after a
re-render while the request is in flight, and let the request fail with any
error `err`.  Afterwards the transcript is exactly the transcript right after
acceptance (the user message is its last entry, nothing else was added), `error`
is the fixed non-empty text `failureText` whatever `err` is, `isLoading` is
false, `conversationId` is unchanged, and the request is no longer
outstanding. -/
theorem failed_settlement_isolated (c : Ctl) (mid : List Event) (err : String)
    (hl : c.rendered.isLoading = false) (hd : jsTrim c.rendered.input ≠ "")
    (hmid : whileInFlight false mid = true) :
    (Ctl.step (Ctl.run (Ctl.step c Event.submit) mid)
        (Event.reject c.outstanding.length err)).app.messages =
      (Ctl.step c Event.submit).app.messages ∧
    (Ctl.step (Ctl.run (Ctl.step c Event.submit) mid)
        (Event.reject c.outstanding.length err)).app.messages =
      c.app.messages ++ [{ role := Role.user, content := jsTrim c.rendered.input }] ∧
    (Ctl.step (Ctl.run (Ctl.step c Event.submit) mid)
        (Event.reject c.outstanding.length err)).app.error = some failureText ∧
    failureText ≠ "" ∧
    (Ctl.step (Ctl.run (Ctl.step c Event.submit) mid)
        (Event.reject c.outstanding.length err)).app.isLoading = false ∧
    (Ctl.step (Ctl.run (Ctl.step c Event.submit) mid)
        (Event.reject c.outstanding.length err)).app.conversationId =
      c.app.conversationId ∧
    (Ctl.step (Ctl.run (Ctl.step c Event.submit) mid)
        (Event.reject c.outstanding.length err)).outstanding = c.outstanding := by
  have hacc := Ctl.step_submit_of_accept c hl hd
  have hbusy : (Ctl.step c Event.submit).app.isLoading = true := by rw [hacc]
  have h1m : (Ctl.step c Event.submit).app.messages =
      c.app.messages ++ [{ role := Role.user, content := jsTrim c.rendered.input }] := by
    rw [hacc]
  have h1c : (Ctl.step c Event.submit).app.conversationId = c.app.conversationId := by
    rw [hacc]
  have h1o : (Ctl.step c Event.submit).outstanding = c.outstanding ++
      [{ message := jsTrim c.rendered.input
         conversationId := c.rendered.conversationId }] := by
    rw [hacc]
  obtain ⟨hm, _, hc, _, ho⟩ :=
    Ctl.run_whileInFlight (Ctl.step c Event.submit) false mid hbusy (by simp) hmid
  clear hacc hbusy
  generalize Ctl.step c Event.submit = c1 at *
  generalize Ctl.run c1 mid = c2 at *
  obtain ⟨a2, v2, o2⟩ := c2
  simp only at hm hc ho
  rw [ho, h1o, Ctl.step_reject_last]
  refine ⟨?_, ?_, ?_, by decide, ?_, ?_, ?_⟩
  · simpa [handleSubmit_rejected] using hm
  · simpa [handleSubmit_rejected, h1m] using hm
  · simp [handleSubmit_rejected]
  · simp [handleSubmit_rejected]
  · simpa [handleSubmit_rejected, h1c] using hc
  · rfl

theorem failed_settlement_isolated_witness :
    (Ctl.step (Ctl.run (Ctl.step (Ctl.run Ctl.init [Event.edit "Analyze this", Event.render])
          Event.submit)
        [Event.render, Event.edit "Second", Event.render, Event.submit, Event.render])
        (Event.reject
          (Ctl.run Ctl.init [Event.edit "Analyze this", Event.render]).outstanding.length
          "TypeError: Failed to fetch")).app.messages =
      (Ctl.run Ctl.init [Event.edit "Analyze this", Event.render]).app.messages ++
        [{ role := Role.user,
           content :=
            jsTrim (Ctl.run Ctl.init [Event.edit "Analyze this", Event.render]).rendered.input }] :=
  (failed_settlement_isolated (Ctl.run Ctl.init [Event.edit "Analyze this", Event.render])
    [Event.render, Event.edit "Second", Event.render, Event.submit, Event.render]
    "TypeError: Failed to fetch"
    (by decide) (by decide) (by decide)).2.1

/-- C4 (successful settlement): take a state whose rendered `isLoading` is false
and whose rendered draft is not blank, submit it, let the user edit the draft,
the component re-render, and the user attempt further submissions after a
re-render while the request is in flight, and let the request resolve with
reply text `r.response`.  Afterwards the transcript is the transcript right
after acceptance with exactly the message
`{role: assistant, content: r.response}` appended, `isLoading` is false, `error`
is still null, and the request is no longer outstanding. -/
theorem successful_settlement (c : Ctl) (mid : List Event) (r : Response)
    (hl : c.rendered.isLoading = false) (hd : jsTrim c.rendered.input ≠ "")
    (hmid : whileInFlight false mid = true) :
    (Ctl.step (Ctl.run (Ctl.step c Event.submit) mid)
        (Event.resolve c.outstanding.length r)).app.messages =
      (Ctl.step c Event.submit).app.messages ++
        [{ role := Role.assistant, content := r.response }] ∧
    (Ctl.step (Ctl.run (Ctl.step c Event.submit) mid)
        (Event.resolve c.outstanding.length r)).app.messages =
      c.app.messages ++
        [{ role := Role.user, content := jsTrim c.rendered.input },
         { role := Role.assistant, content := r.response }] ∧
    (Ctl.step (Ctl.run (Ctl.step c Event.submit) mid)
        (Event.resolve c.outstanding.length r)).app.isLoading = false ∧
    (Ctl.step (Ctl.run (Ctl.step c Event.submit) mid)
        (Event.resolve c.outstanding.length r)).app.error = none ∧
    (Ctl.step (Ctl.run (Ctl.step c Event.submit) mid)
        (Event.resolve c.outstanding.length r)).outstanding = c.outstanding := by
  have hacc := Ctl.step_submit_of_accept c hl hd
  have hbusy : (Ctl.step c Event.submit).app.isLoading = true := by rw [hacc]
  have h1m : (Ctl.step c Event.submit).app.messages =
      c.app.messages ++ [{ role := Role.user, content := jsTrim c.rendered.input }] := by
    rw [hacc]
  have h1e : (Ctl.step c Event.submit).app.error = none := by rw [hacc]
  have h1o : (Ctl.step c Event.submit).outstanding = c.outstanding ++
      [{ message := jsTrim c.rendered.input
         conversationId := c.rendered.conversationId }] := by
    rw [hacc]
  obtain ⟨hm, _, _, he, ho⟩ :=
    Ctl.run_whileInFlight (Ctl.step c Event.submit) false mid hbusy (by simp) hmid
  clear hacc hbusy
  generalize Ctl.step c Event.submit = c1 at *
  generalize Ctl.run c1 mid = c2 at *
  obtain ⟨a2, v2, o2⟩ := c2
  simp only at hm he ho
  rw [ho, h1o, Ctl.step_resolve_last]
  refine ⟨?_, ?_, rfl, ?_, rfl⟩
  · simp only [handleSubmit_resolved_messages, hm]
  · simp only [handleSubmit_resolved_messages, hm, h1m, List.append_assoc,
      List.singleton_append]
  · simp only [handleSubmit_resolved_error, he, h1e]

theorem successful_settlement_witness :
    (Ctl.step (Ctl.run (Ctl.step (Ctl.run Ctl.init [Event.edit "First", Event.render])
          Event.submit)
        [Event.render, Event.edit "Second", Event.render, Event.submit, Event.render])
        (Event.resolve (Ctl.run Ctl.init [Event.edit "First", Event.render]).outstanding.length
          { conversation_id := some "c1", response := "Looks neutral." })).app.messages =
      (Ctl.run Ctl.init [Event.edit "First", Event.render]).app.messages ++
        [{ role := Role.user,
           content := jsTrim (Ctl.run Ctl.init [Event.edit "First", Event.render]).rendered.input },
         { role := Role.assistant, content := "Looks neutral." }] :=
  (successful_settlement (Ctl.run Ctl.init [Event.edit "First", Event.render])
    [Event.render, Event.edit "Second", Event.render, Event.submit, Event.render]
    { conversation_id := some "c1", response := "Looks neutral." }
    (by decide) (by decide) (by decide)).2.1

/-! ## Conversation continuity -/

/-- C5, as stated, fails twice.  First, in the state reached by submitting `hi`
in a fresh session the stored `conversationId` is null and one request is
outstanding; when it resolves with the non-null identifier `""` the stored
`conversationId` stays null instead of becoming `""`.  Second, after two submit
attempts from the same render and the resolution of the first request with
`cA`, the stored `conversationId` is `cA`; when the second request, which
captured null, resolves with `cB`, the stored `conversationId` becomes `cB`
instead of being left as it was. -/
theorem latch_skips_empty_identifier :
    ((Ctl.run Ctl.init [Event.edit "hi", Event.render, Event.submit]).app.conversationId
        = none ∧
      (Ctl.run Ctl.init [Event.edit "hi", Event.render, Event.submit]).outstanding =
        [{ message := "hi", conversationId := none }] ∧
      (some "" : Option String) ≠ none ∧
      (Ctl.step (Ctl.run Ctl.init [Event.edit "hi", Event.render, Event.submit])
          (Event.resolve 0 { conversation_id := some "", response := "ok" })).app.conversationId
        ≠ some "") ∧
    ((Ctl.run Ctl.init
        [Event.edit "First", Event.render, Event.submit, Event.submit,
         Event.resolve 0 { conversation_id := some "cA", response := "a" }]).app.conversationId
        = some "cA" ∧
      (Ctl.run Ctl.init
        [Event.edit "First", Event.render, Event.submit, Event.submit,
         Event.resolve 0 { conversation_id := some "cA", response := "a" }]).outstanding =
        [{ message := "First", conversationId := none }] ∧
      (Ctl.step (Ctl.run Ctl.init
          [Event.edit "First", Event.render, Event.submit, Event.submit,
           Event.resolve 0 { conversation_id := some "cA", response := "a" }])
          (Event.resolve 0 { conversation_id := some "cB", response := "b" })).app.conversationId
        ≠ some "cA") := by
  decide

/-- C5 (amended, conversation latch): in a reachable state, when an outstanding
request resolves with identifier `id`: if `id` is null or the empty string, the
stored `conversationId` is left exactly as it was; and when the request was
sent with the `conversationId` that is stored at settlement, then if the stored
`conversationId` is null and `id` is a non-empty string the stored
`conversationId` becomes `id`, and if a `conversationId` is already stored it is
left exactly as it was. -/
theorem conversation_latch (c : Ctl) (i : Nat) (q : Request) (r : Response)
    (hc : Reachable c) (hq : c.outstanding[i]? = some q) :
    (r.conversation_id = none ∨ r.conversation_id = some "" →
      (Ctl.step c (Event.resolve i r)).app.conversationId = c.app.conversationId) ∧
    (q.conversationId = c.app.conversationId →
      (c.app.conversationId = none → ∀ id, r.conversation_id = some id → id ≠ "" →
        (Ctl.step c (Event.resolve i r)).app.conversationId = some id) ∧
      (c.app.conversationId ≠ none →
        (Ctl.step c (Event.resolve i r)).app.conversationId = c.app.conversationId)) := by
  have hne := hc.conversationId_ne_empty
  have hstep : (Ctl.step c (Event.resolve i r)).app =
      handleSubmit_resolved q.conversationId r c.app := by
    simp only [Ctl.step, hq]
  rw [hstep]
  constructor
  · intro h
    rcases h with h | h
    · simp [handleSubmit_resolved, h, truthy]
    · simp [handleSubmit_resolved, h, truthy, truthyStr]
  · intro hcap
    rw [hcap]
    have key := handleSubmit_resolved_conversationId r c.app hne
    exact ⟨key.1, fun h => key.2 (Or.inl h)⟩

theorem conversation_latch_witness :
    (Ctl.step (Ctl.run Ctl.init [Event.edit "hi", Event.render, Event.submit])
        (Event.resolve 0 { conversation_id := some "c1", response := "ok" })).app.conversationId
      = some "c1" :=
  ((conversation_latch (Ctl.run Ctl.init [Event.edit "hi", Event.render, Event.submit]) 0
    { message := "hi", conversationId := none }
    { conversation_id := some "c1", response := "ok" }
    ⟨[Event.edit "hi", Event.render, Event.submit], rfl⟩ (by decide)).2 (by decide)).1
    (by decide) "c1" rfl (by decide)

/-- C6 at its failing input: the draft `First` is rendered and two submit
attempts reach the handler of that render, so both requests capture a null
`conversationId`.  After the first request resolves with `cA` the stored
`conversationId` is `cA`; when the second resolves with `cB` the test of line 51
still reads the captured null and the stored `conversationId` is overwritten
with `cB`. -/
theorem stale_latch_overwrites_conversationId :
    (Ctl.run Ctl.init
      [Event.edit "First", Event.render, Event.submit, Event.submit,
       Event.resolve 0 { conversation_id := some "cA", response := "a" }]).app.conversationId
      = some "cA" ∧
    (Ctl.run (Ctl.run Ctl.init
        [Event.edit "First", Event.render, Event.submit, Event.submit,
         Event.resolve 0 { conversation_id := some "cA", response := "a" }])
      [Event.resolve 0 { conversation_id := some "cB", response := "b" }]).app.conversationId
      = some "cB" := by
  decide

/-- When every submit attempt is made from a current render, a stored
`conversationId` is kept by every later event. -/
theorem conversationId_kept_of_current_renders (before later : List Event) (v : String)
    (h : (Ctl.run Ctl.init (renderBeforeSubmit before)).app.conversationId = some v) :
    (Ctl.run (Ctl.run Ctl.init (renderBeforeSubmit before))
      (renderBeforeSubmit later)).app.conversationId = some v := by
  have hinv : Ctl.Inv (Ctl.run Ctl.init (renderBeforeSubmit before)) :=
    Ctl.Inv_renderBeforeSubmit _ _ Ctl.Inv_init
  generalize Ctl.run Ctl.init (renderBeforeSubmit before) = c at h hinv
  induction later generalizing c with
  | nil => exact h
  | cons e es ih =>
    rw [renderBeforeSubmit_cons, Ctl.run_append]
    exact ih _ (Ctl.conversationId_fromCurrentRender c e v hinv h)
      (Ctl.Inv_fromCurrentRender c e hinv)

/-! ## Transcript properties -/

/-- C7 (ordering): for every finite sequence of non-blank drafts, each typed and
submitted from the idle state and each resolved (with any identifier and reply)
before the next is typed, the final transcript is the seeded greeting followed
by `user (trim d1), assistant r1, ..., user (trim dn), assistant rn`, and so has
exactly `2 n + 1` entries. -/
theorem transcript_ordering (rounds : List (String × Response))
    (h : ∀ p ∈ rounds, jsTrim p.1 ≠ "") :
    (Ctl.run Ctl.init (roundEvents rounds)).app.messages = greeting :: roundMessages rounds ∧
    (Ctl.run Ctl.init (roundEvents rounds)).app.messages.length = 2 * rounds.length + 1 := by
  have hrun := (Ctl.run_roundEvents Ctl.init rounds rfl rfl h).1
  have hlen : (roundMessages rounds).length = 2 * rounds.length := by
    clear h hrun
    induction rounds with
    | nil => rfl
    | cons p rounds ih =>
      simp only [roundMessages, List.flatMap_cons, List.length_append, List.length_cons,
        List.length_nil] at ih ⊢
      omega
  have hmsgs : (Ctl.run Ctl.init (roundEvents rounds)).app.messages =
      greeting :: roundMessages rounds := by
    rw [hrun]
    rfl
  refine ⟨hmsgs, ?_⟩
  rw [hmsgs, List.length_cons, hlen]

theorem transcript_ordering_witness :
    (Ctl.run Ctl.init (roundEvents
        [("Software engineer wanted, he must be aggressive",
          { conversation_id := some "c1", response := "Detected masculine-coded language..." }),
         ("Rewrite it", { conversation_id := some "c1", response := "..." })])).app.messages.length
      = 2 * [("Software engineer wanted, he must be aggressive",
          ({ conversation_id := some "c1",
             response := "Detected masculine-coded language..." } : Response)),
         ("Rewrite it", { conversation_id := some "c1", response := "..." })].length + 1 :=
  (transcript_ordering
    [("Software engineer wanted, he must be aggressive",
      { conversation_id := some "c1", response := "Detected masculine-coded language..." }),
     ("Rewrite it", { conversation_id := some "c1", response := "..." })]
    (by decide)).2

/-- C8 at its failing input: the draft `First` is rendered and two submit
attempts reach the handler of that render.  The first is accepted and sets
`isLoading`, but the second still reads the rendered `isLoading = false`, is
accepted while the first request is outstanding, and two requests are
outstanding at once. -/
theorem double_submit_before_render :
    (Ctl.run Ctl.init [Event.edit "First", Event.render, Event.submit]).outstanding =
      [{ message := "First", conversationId := none }] ∧
    (Ctl.run Ctl.init [Event.edit "First", Event.render, Event.submit]).app.isLoading
      = true ∧
    (Ctl.run Ctl.init
      [Event.edit "First", Event.render, Event.submit, Event.submit]).outstanding =
      [{ message := "First", conversationId := none },
       { message := "First", conversationId := none }] ∧
    (Ctl.run Ctl.init
      [Event.edit "First", Event.render, Event.submit, Event.submit]).outstanding.length
      = 2 ∧
    (Ctl.run Ctl.init
      [Event.edit "First", Event.render, Event.submit, Event.submit]).app.messages =
      [greeting, { role := Role.user, content := "First" },
       { role := Role.user, content := "First" }] := by
  decide

/-- When every submit attempt is made from a current render, at most one request
is outstanding: exactly one when `isLoading` is true and none when it is false;
and a submit attempt from a current render with a request outstanding is
rejected. -/
theorem single_flight_of_current_renders (es : List Event) :
    (Ctl.run Ctl.init (renderBeforeSubmit es)).outstanding.length ≤ 1 ∧
    ((Ctl.run Ctl.init (renderBeforeSubmit es)).app.isLoading = true →
      (Ctl.run Ctl.init (renderBeforeSubmit es)).outstanding.length = 1) ∧
    ((Ctl.run Ctl.init (renderBeforeSubmit es)).app.isLoading = false →
      (Ctl.run Ctl.init (renderBeforeSubmit es)).outstanding.length = 0) ∧
    ((Ctl.run Ctl.init (renderBeforeSubmit es)).outstanding ≠ [] →
      Ctl.run (Ctl.run Ctl.init (renderBeforeSubmit es)) [Event.render, Event.submit] =
        Ctl.step (Ctl.run Ctl.init (renderBeforeSubmit es)) Event.render) := by
  have hinv : Ctl.Inv (Ctl.run Ctl.init (renderBeforeSubmit es)) :=
    Ctl.Inv_renderBeforeSubmit _ _ Ctl.Inv_init
  generalize Ctl.run Ctl.init (renderBeforeSubmit es) = c at hinv
  rcases Ctl.Inv_cases c hinv with ⟨hl, ho⟩ | ⟨hl, q, ho, _⟩
  · simp [hl, ho]
  · refine ⟨by simp [ho], fun _ => by simp [ho], fun h => ?_, fun _ => ?_⟩
    · rw [hl] at h
      exact absurd h (by simp)
    · rw [Ctl.run_cons, Ctl.run_cons, Ctl.run_nil]
      exact Ctl.step_submit_of_reject (Ctl.step c Event.render) (Or.inr hl)

/-- C9 (append-only transcript): for every state and every controller step (draft
edit, rejected or accepted submit, successful or failed settlement, re-render),
the transcript after the step is the transcript before the step followed by at
most one new message; no existing entry is edited, reordered or removed. -/
theorem transcript_append_only (c : Ctl) (e : Event) :
    ∃ added : List Message,
      (Ctl.step c e).app.messages = c.app.messages ++ added ∧ added.length ≤ 1 := by
  cases e with
  | edit v => exact ⟨[], by simp [Ctl.step, setInput], by simp⟩
  | render => exact ⟨[], by simp [Ctl.step], by simp⟩
  | submit =>
    rcases handleSubmit_guard_cases c.rendered with hrej | ⟨hl, hd⟩
    · exact ⟨[], by rw [Ctl.step_submit_of_reject c hrej]; simp, by simp⟩
    · exact ⟨[{ role := Role.user, content := jsTrim c.rendered.input }],
        by rw [Ctl.step_submit_of_accept c hl hd], by simp⟩
  | resolve i r =>
    cases hq : c.outstanding[i]? with
    | none => exact ⟨[], by simp [Ctl.step, hq], by simp⟩
    | some q =>
      refine ⟨[{ role := Role.assistant, content := r.response }], ?_, by simp⟩
      simp only [Ctl.step, hq]
      exact handleSubmit_resolved_messages _ _ _
  | reject i err =>
    cases hq : c.outstanding[i]? with
    | none => exact ⟨[], by simp [Ctl.step, hq], by simp⟩
    | some q => exact ⟨[], by simp [Ctl.step, hq, handleSubmit_rejected], by simp⟩

/-! ## The Send control -/

/-- C10 (submit control consistency): for the values of any render, the
`disabled` flag of the Send button is true exactly when `isLoading` is true or
the trimmed draft is empty, which is exactly when the `handleSubmit` of that
render rejects (state unchanged, no request); and it is false exactly when that
`handleSubmit` accepts and makes a request. -/
theorem sendDisabled_iff_rejected (v s : AppState) :
    (sendDisabled v = true ↔ v.isLoading = true ∨ jsTrim v.input = "") ∧
    (sendDisabled v = true ↔ handleSubmit v s = (s, none)) ∧
    (sendDisabled v = false ↔ ∃ q, (handleSubmit v s).2 = some q) := by
  have h1 : sendDisabled v = true ↔ v.isLoading = true ∨ jsTrim v.input = "" := by
    simp [sendDisabled, truthyStr]
  rcases handleSubmit_guard_cases v with hrej | ⟨hl, hne⟩
  · have hd : sendDisabled v = true := h1.mpr hrej.symm
    have hs := handleSubmit_of_reject v s hrej
    refine ⟨h1, ?_, ?_⟩
    · simp [hd, hs]
    · simp [hd, hs]
  · have hd : sendDisabled v = false := by
      cases hb : sendDisabled v with
      | false => rfl
      | true =>
        rcases h1.mp hb with h | h
        · rw [hl] at h
          exact absurd h (by simp)
        · exact absurd h hne
    have hs := handleSubmit_of_accept v s hl hne
    refine ⟨h1, ?_, ?_⟩
    · simp [hd, hs]
    · simp [hd, hs]

end BiasAnalyzer
